import Mathlib

/-!
Shallow embedding of the `errcode` crate (src/errcode/src), covering the
error-code descriptor layer (`error_code.rs`), the error facade (`error.rs`),
and both error backends (`error_impl/unboxed.rs` and `error_impl/full.rs`).

Machine integers (`usize`) are modelled as `Nat`; the target is a 64-bit
platform, so bitwise complements such as `!TAG_MASK` become `2^64 - 4`.
`&'static` pointers are modelled as natural-number addresses into an explicit
memory `Mem` mapping every address to the value stored there; the crate's
build-time alignment check (`_CHECK_REQUIRED_ALIGNMENT`) guarantees that every
real descriptor address is a nonzero multiple of 4, which appears here as the
`ptrWF` hypothesis on addresses.  Rust `&str` values are modelled as a data
address plus a length, with `Mem.byteAt` giving the character stored at each
address (the model works at character rather than byte granularity, which is
faithful for the length bookkeeping the code performs).
-/

namespace Errcode

/-- `ErrorCodeInfo` from `error_code.rs`: static metadata for one error-code
variant.  `TypeId` is modelled as a `Nat` identity token. -/
structure ErrorCodeInfo where
  tid : Nat
  value : Nat
  type_name : String
  variant_name : String
  message : Option String
deriving DecidableEq

/-- `DecodedLocation` from `error_impl/mod.rs`. -/
structure DecodedLocation where
  module : String
  line : Nat
  column : Nat
deriving DecidableEq

/-- `DecodedLocation::is_same` from `error_impl/mod.rs`: compares module and
line only. -/
def DecodedLocation.is_same (a : DecodedLocation) (b : DecodedLocation) : Bool :=
  a.module == b.module && a.line == b.line

/-- `ErrorSourceStatic` from `error_impl/mod.rs`.  The `error_code` and
`location` references are inlined by value (they are only read, never
compared by address). -/
structure ErrorSourceStatic where
  error_code : Option ErrorCodeInfo
  message_static : Option String
  is_static_message_incomplete : Bool
  location : Option DecodedLocation
deriving DecidableEq

/-- The static memory: what is stored at each address.  `srcAt` gives the
`ErrorSourceStatic` a pointer dereference reads at an address; `byteAt` gives
the character of string data stored at an address. -/
structure Mem where
  srcAt : Nat → ErrorSourceStatic
  byteAt : Nat → Char

/-- A well-formed `&'static ErrorSourceStatic` address: nonzero, 4-aligned
(the build-time alignment assertion) and representable in a 64-bit word. -/
def ptrWF (a : Nat) : Prop :=
  a % 4 = 0 ∧ a ≠ 0 ∧ a < 2 ^ 64

/-- `ErrorOrigin` from `error_impl/mod.rs`.  A `TypeOrigin` carries the
foreign type name as a string (data address plus length) and an optional
pointer to an associated `ErrorSourceStatic`. -/
inductive ErrorOrigin where
  | StaticOrigin (ptr : Nat)
  | TypeOrigin (strPtr : Nat) (strLen : Nat) (code : Option Nat)
deriving DecidableEq

/-- Well-formedness of an origin: every descriptor pointer in it is `ptrWF`
and a type name's data address fits in a word. -/
def originWF : ErrorOrigin → Prop
  | .StaticOrigin ptr => ptrWF ptr
  | .TypeOrigin strPtr _ (some ptr) => ptrWF ptr ∧ strPtr < 2 ^ 64
  | .TypeOrigin strPtr _ none => strPtr < 2 ^ 64

namespace Unboxed

/-! Constants from `error_impl/unboxed.rs` lines 50-56.  The negated masks
`!TAG_MASK` and `!OMITTED_BIT_MASK` are 64-bit complements. -/

def TAG_STATIC_ORIGINAL : Nat := 0
def TAG_STATIC_TYPE_ONLY : Nat := 1
def TAG_STATIC_CONTEXT_ONLY : Nat := 2
def TAG_MASK : Nat := 3

/-- `MAX_TYPE_LEN = (usize::MAX >> 2) + 1` at 64 bits. -/
def MAX_TYPE_LEN : Nat := ((2 ^ 64 - 1) >>> 2) + 1

def OMITTED_BIT_MASK : Nat := 1

/-- The 64-bit complement `!TAG_MASK`. -/
def NOT_TAG_MASK : Nat := 2 ^ 64 - 4

/-- The 64-bit complement `!OMITTED_BIT_MASK`. -/
def NOT_OMITTED_MASK : Nat := 2 ^ 64 - 2

/-- `PackedOriginInfo` from `error_impl/unboxed.rs`: one tagged word plus one
word of additional data.  The `NonZeroUsize` niche of the `tag` field is an
invariant of reachable states, not part of the representation here. -/
structure PackedOriginInfo where
  tag : Nat
  additional : Nat
deriving DecidableEq

/-- `PackedOriginInfo::tag()` (the discriminant in the low two bits). -/
def PackedOriginInfo.tagBits (p : PackedOriginInfo) : Nat :=
  p.tag &&& TAG_MASK

/-- `PackedOriginInfo::for_origin`.  The `assert!(ptr.len() < MAX_TYPE_LEN)`
is modelled by returning `none` (a panic) when it fails; under the guard the
shift `len << 2` cannot discard bits, so no 64-bit truncation is needed. -/
def PackedOriginInfo.for_origin : ErrorOrigin → Option PackedOriginInfo
  | .StaticOrigin ptr => some ⟨ptr ||| TAG_STATIC_ORIGINAL, 0⟩
  | .TypeOrigin _ _ (some ptr) => some ⟨ptr ||| TAG_STATIC_ORIGINAL, 0⟩
  | .TypeOrigin strPtr strLen none =>
    if strLen < MAX_TYPE_LEN then
      some ⟨(strLen <<< 2) ||| TAG_STATIC_TYPE_ONLY, strPtr⟩
    else
      none

/-- `PackedOriginInfo::with_context`, the context-merge algorithm.  The
`unreachable_unchecked` arm for a corrupted tag is modelled as `none`.

Note the faithful modelling of line 118 of the source: the current last
frame is read through `self.additional` as-is, without first clearing the
omitted bit, so once the omitted bit is set the dereference happens at the
odd address `last + 1`. -/
def PackedOriginInfo.with_context (m : Mem) (p : PackedOriginInfo) (source : Nat) :
    Option PackedOriginInfo :=
  if p.tagBits = TAG_STATIC_ORIGINAL ∨ p.tagBits = TAG_STATIC_CONTEXT_ONLY then
    if p.additional = 0 then
      some { p with additional := source }
    else
      let original := m.srcAt p.additional
      if original.error_code.isNone || (m.srcAt source).error_code.isSome then
        some { p with additional := source ||| OMITTED_BIT_MASK }
      else
        some { p with additional := p.additional ||| OMITTED_BIT_MASK }
  else if p.tagBits = TAG_STATIC_TYPE_ONLY then
    some ⟨source ||| TAG_STATIC_CONTEXT_ONLY, 0⟩
  else
    none

/-- `PackedOriginInfo::ty_name`: reads `tag >> 2` characters starting at the
data address held in `additional`.  (The source asserts the tag is
`TAG_STATIC_TYPE_ONLY`; callers only invoke this in that state.) -/
def PackedOriginInfo.ty_name (m : Mem) (p : PackedOriginInfo) : List Char :=
  (List.range (p.tag >>> 2)).map (fun i => m.byteAt (p.additional + i))

/-- `PackedOriginInfo::context_first`: the first context frame, read through
the tag word with the discriminant bits cleared.  (The source asserts the tag
is `TAG_STATIC_ORIGINAL` or `TAG_STATIC_CONTEXT_ONLY`; callers only invoke
this in those states.) -/
def PackedOriginInfo.context_first (m : Mem) (p : PackedOriginInfo) : ErrorSourceStatic :=
  m.srcAt (p.tag &&& NOT_TAG_MASK)

/-- `PackedOriginInfo::context_second`: the recorded last context frame, if
any, read through `additional` with the omitted bit cleared. -/
def PackedOriginInfo.context_second (m : Mem) (p : PackedOriginInfo) :
    Option ErrorSourceStatic :=
  if p.additional &&& NOT_OMITTED_MASK = 0 then
    none
  else
    some (m.srcAt (p.additional &&& NOT_OMITTED_MASK))

/-- `PackedOriginInfo::has_omitted_context`. -/
def PackedOriginInfo.has_omitted_context (p : PackedOriginInfo) : Bool :=
  if p.tagBits = TAG_STATIC_CONTEXT_ONLY ∨ p.tagBits = TAG_STATIC_ORIGINAL then
    p.additional &&& OMITTED_BIT_MASK == OMITTED_BIT_MASK
  else
    false

/-- `PackedOriginInfo::code`. -/
def PackedOriginInfo.code (m : Mem) (p : PackedOriginInfo) : Option ErrorCodeInfo :=
  if p.tagBits = TAG_STATIC_TYPE_ONLY then
    none
  else
    match p.context_second m with
    | some context_second =>
      if context_second.error_code.isSome then
        context_second.error_code
      else
        (p.context_first m).error_code
    | none => (p.context_first m).error_code

/-- A sequence of `push_context` calls on a packed state, left to right. -/
def PackedOriginInfo.pushAll (m : Mem) (p : PackedOriginInfo) (srcs : List Nat) :
    Option PackedOriginInfo :=
  srcs.foldl (fun acc s => acc.bind (fun q => q.with_context m s)) (some p)

/-- The compact backend's `ErrorImpl`.  `original_location` is `some` exactly
when the `repr_unboxed_location` feature is enabled; both build configurations
are covered by the `Option`. -/
structure ErrorImpl where
  origin_info : PackedOriginInfo
  original_location : Option DecodedLocation
deriving DecidableEq

end Unboxed

/-- `MessageContainer` from `error_impl/mod.rs` (the `Formatted` variant
exists under the `repr_full` feature). -/
inductive MessageContainer where
  | Static (s : String)
  | IncompleteStatic (s : String)
  | Formatted (s : String)
deriving DecidableEq

/-- `InternalContextType` from `error_impl/mod.rs`. -/
inductive InternalContextType where
  | ErrorTypeConstructed
  | OriginalTypeLost
  | FurtherFramesOmitted
deriving DecidableEq

/-- `ErrorFrameData` from `error_impl/mod.rs`.  A `TypeFrame` holds the
decoded characters of the foreign type's name. -/
inductive ErrorFrameData where
  | InternalContext (t : InternalContextType)
  | TypeFrame (name : List Char) (info : Option ErrorCodeInfo)
  | NormalFrame (msg : Option MessageContainer) (info : Option ErrorCodeInfo)
deriving DecidableEq

/-- `ErrorFrameData::decode_static` from `error_impl/mod.rs`. -/
def ErrorFrameData.decode_static (data : ErrorSourceStatic)
    (formatted : Option MessageContainer) : ErrorFrameData :=
  ErrorFrameData.NormalFrame
    (formatted.orElse (fun _ =>
      data.message_static.map (fun msg =>
        if data.is_static_message_incomplete then
          MessageContainer.IncompleteStatic msg
        else
          MessageContainer.Static msg)))
    data.error_code

/-- `ErrorFrame` from `error_impl/mod.rs`. -/
structure ErrorFrame where
  data : ErrorFrameData
  location : Option DecodedLocation
deriving DecidableEq

/-- Classifier used to state spec properties: a frame is substantive when it
is a `TypeFrame` or `NormalFrame`, and diagnostic when it is an
`InternalContext` marker. -/
def ErrorFrameData.isSubstantive : ErrorFrameData → Bool
  | .InternalContext _ => false
  | .TypeFrame _ _ => true
  | .NormalFrame _ _ => true

/-- The substantive frames of a decoded frame list. -/
def substantiveFrames (l : List ErrorFrame) : List ErrorFrameData :=
  (l.map ErrorFrame.data).filter ErrorFrameData.isSubstantive

/-- Classifier used to state spec properties: the omitted-frames marker. -/
def ErrorFrame.isOmittedMarker (f : ErrorFrame) : Bool :=
  f.data == ErrorFrameData.InternalContext InternalContextType.FurtherFramesOmitted

namespace Unboxed

/-- `ErrorIterPhase` from `error_impl/unboxed.rs`. -/
inductive ErrorIterPhase where
  | TypeContext
  | LocationMismatchFrame
  | FirstContext
  | LastContext
  | FramesOmitted
  | Ended
deriving DecidableEq

/-- `ErrorImplIter` from `error_impl/unboxed.rs`. -/
structure ErrorImplIter where
  phase : ErrorIterPhase
  origin_info : PackedOriginInfo
  original_location : Option DecodedLocation

/-- `ErrorImpl::iter`. -/
def ErrorImpl.iter (e : ErrorImpl) : ErrorImplIter :=
  ⟨ErrorIterPhase.TypeContext, e.origin_info, e.original_location⟩

/-!  `Iterator::next` for `ErrorImplIter` is a sequence of phase blocks; each
block runs when the stored phase matches, advances the phase, and either
returns a frame or falls through to the next block.  Each block is one
definition below, and falling through is calling the next one. -/

/-- The `FramesOmitted` block of `next` (lines 284-296). -/
def phaseFramesOmitted (it : ErrorImplIter) : Option (ErrorFrame × ErrorImplIter) :=
  let tag := it.origin_info.tagBits
  let it2 : ErrorImplIter := { it with phase := ErrorIterPhase.Ended }
  if tag = TAG_STATIC_ORIGINAL ∨ tag = TAG_STATIC_CONTEXT_ONLY then
    if it2.origin_info.has_omitted_context then
      some (⟨ErrorFrameData.InternalContext InternalContextType.FurtherFramesOmitted, none⟩, it2)
    else
      none
  else
    none

/-- The `LastContext` block of `next` (lines 271-281). -/
def phaseLastContext (m : Mem) (it : ErrorImplIter) : Option (ErrorFrame × ErrorImplIter) :=
  let tag := it.origin_info.tagBits
  let it2 : ErrorImplIter := { it with phase := ErrorIterPhase.FramesOmitted }
  if tag = TAG_STATIC_ORIGINAL ∨ tag = TAG_STATIC_CONTEXT_ONLY then
    match it2.origin_info.context_second m with
    | some context_second =>
      some (⟨ErrorFrameData.decode_static context_second none, context_second.location⟩, it2)
    | none => phaseFramesOmitted it2
  else
    phaseFramesOmitted it2

/-- The `FirstContext` block of `next` (lines 254-268). -/
def phaseFirstContext (m : Mem) (it : ErrorImplIter) : Option (ErrorFrame × ErrorImplIter) :=
  let tag := it.origin_info.tagBits
  let it2 : ErrorImplIter := { it with phase := ErrorIterPhase.LastContext }
  if tag = TAG_STATIC_ORIGINAL ∨ tag = TAG_STATIC_CONTEXT_ONLY then
    let context_first := it2.origin_info.context_first m
    let location :=
      if tag = TAG_STATIC_ORIGINAL then it2.original_location else context_first.location
    some (⟨ErrorFrameData.decode_static context_first none, location⟩, it2)
  else
    phaseLastContext m it2

/-- The `LocationMismatchFrame` block of `next` (lines 234-251). -/
def phaseLocationMismatch (m : Mem) (it : ErrorImplIter) : Option (ErrorFrame × ErrorImplIter) :=
  let tag := it.origin_info.tagBits
  let it2 : ErrorImplIter := { it with phase := ErrorIterPhase.FirstContext }
  if tag = TAG_STATIC_ORIGINAL then
    let context_first := it2.origin_info.context_first m
    match context_first.location, it2.original_location with
    | some location_a, some location_b =>
      if ¬ location_a.is_same location_b then
        some (⟨ErrorFrameData.InternalContext InternalContextType.ErrorTypeConstructed,
          some location_a⟩, it2)
      else
        phaseFirstContext m it2
    | _, _ => phaseFirstContext m it2
  else
    phaseFirstContext m it2

/-- The `TypeContext` block of `next` (lines 210-230). -/
def phaseTypeContext (m : Mem) (it : ErrorImplIter) : Option (ErrorFrame × ErrorImplIter) :=
  let tag := it.origin_info.tagBits
  if tag = TAG_STATIC_TYPE_ONLY then
    some (⟨ErrorFrameData.TypeFrame (it.origin_info.ty_name m) none, it.original_location⟩,
      { it with phase := ErrorIterPhase.Ended })
  else if tag = TAG_STATIC_CONTEXT_ONLY then
    some (⟨ErrorFrameData.InternalContext InternalContextType.OriginalTypeLost,
      it.original_location⟩,
      { it with phase := ErrorIterPhase.LocationMismatchFrame })
  else
    phaseLocationMismatch m { it with phase := ErrorIterPhase.LocationMismatchFrame }

/-- `Iterator::next` for the compact backend: dispatch on the stored phase to
the matching block. -/
def iterNext (m : Mem) (it : ErrorImplIter) : Option (ErrorFrame × ErrorImplIter) :=
  match it.phase with
  | ErrorIterPhase.TypeContext => phaseTypeContext m it
  | ErrorIterPhase.LocationMismatchFrame => phaseLocationMismatch m it
  | ErrorIterPhase.FirstContext => phaseFirstContext m it
  | ErrorIterPhase.LastContext => phaseLastContext m it
  | ErrorIterPhase.FramesOmitted => phaseFramesOmitted it
  | ErrorIterPhase.Ended => none

/-- How many phase blocks are still ahead of a phase; each yielded frame
strictly decreases this, so a full decode yields at most 5 frames. -/
def phaseRank : ErrorIterPhase → Nat
  | ErrorIterPhase.TypeContext => 5
  | ErrorIterPhase.LocationMismatchFrame => 4
  | ErrorIterPhase.FirstContext => 3
  | ErrorIterPhase.LastContext => 2
  | ErrorIterPhase.FramesOmitted => 1
  | ErrorIterPhase.Ended => 0

/-- Collecting the iterator: repeatedly call `next` until it returns `none`.
The fuel argument only bounds the number of yielded frames; fuel 6 is exact
because the phase rank (at most 5) strictly decreases at every yield
(`iterFramesFuel_fuel_irrelevant` below). -/
def iterFramesFuel (m : Mem) : Nat → ErrorImplIter → List ErrorFrame
  | 0, _ => []
  | fuel + 1, it =>
    match iterNext m it with
    | none => []
    | some (f, it2) => f :: iterFramesFuel m fuel it2

/-- All frames decoded from a compact-backend error instance. -/
def decodeFrames (m : Mem) (e : ErrorImpl) : List ErrorFrame :=
  iterFramesFuel m 6 e.iter

/-- `ErrorImplFunctions::new` for the compact backend.  The construction
call-site location is `some` exactly under `repr_unboxed_location`; the
formatted-argument parameter is ignored by this backend, as in the source. -/
def ErrorImpl.new (source : ErrorOrigin) (_args : Option String)
    (location : Option DecodedLocation) : Option ErrorImpl :=
  (PackedOriginInfo.for_origin source).map (fun p => ⟨p, location⟩)

/-- `ErrorImplFunctions::push_context` for the compact backend. -/
def ErrorImpl.push_context (m : Mem) (e : ErrorImpl) (source : Nat)
    (_args : Option String) : Option ErrorImpl :=
  (e.origin_info.with_context m source).map (fun p => { e with origin_info := p })

/-- `ErrorImplFunctions::code` for the compact backend. -/
def ErrorImpl.code (m : Mem) (e : ErrorImpl) : Option ErrorCodeInfo :=
  e.origin_info.code m

end Unboxed

namespace Full

/-- `ErrorSourceStep` from `error_impl/full.rs`.  The step's captured
`&'static Location` is modelled as a `DecodedLocation` value. -/
structure ErrorSourceStep where
  static_info : ErrorOrigin
  location : DecodedLocation
  formatted_message : Option String

/-- The full backend's `ErrorImpl` (the `Box` indirection is immaterial). -/
structure ErrorImpl where
  steps : List ErrorSourceStep
  current_code : Option ErrorCodeInfo

/-- `ErrorImplFunctions::new` for the full backend (`full.rs` lines 24-40). -/
def ErrorImpl.new (m : Mem) (source : ErrorOrigin) (args : Option String)
    (location : DecodedLocation) : ErrorImpl :=
  { steps := [⟨source, location, args⟩],
    current_code :=
      match source with
      | ErrorOrigin.StaticOrigin o => (m.srcAt o).error_code
      | ErrorOrigin.TypeOrigin _ _ (some code) => (m.srcAt code).error_code
      | ErrorOrigin.TypeOrigin _ _ none => none }

/-- `ErrorImplFunctions::push_context` for the full backend (`full.rs` lines
42-51): appends a step and overwrites `current_code` with the new source's
code. -/
def ErrorImpl.push_context (m : Mem) (e : ErrorImpl) (source : Nat)
    (args : Option String) (location : DecodedLocation) : ErrorImpl :=
  { steps := e.steps ++ [⟨ErrorOrigin.StaticOrigin source, location, args⟩],
    current_code := (m.srcAt source).error_code }

/-- `ErrorImplFunctions::code` for the full backend. -/
def ErrorImpl.code (e : ErrorImpl) : Option ErrorCodeInfo :=
  e.current_code

/-- `FrameLoopPhase` from `error_impl/full.rs`. -/
inductive FrameLoopPhase where
  | LocationMismatchFrame
  | Context
  | Ended
deriving DecidableEq

/-- The `while` loop of the full backend's `Iterator::next` (`full.rs` lines
86-103), walking the steps from the current index onward.  The two phase
blocks in the body are unfinished stubs in the source (`TODO` comments), so
no iteration ever returns a frame; after the body the index advances and the
phase resets to `Context`. -/
def iterNextFrom : List ErrorSourceStep → FrameLoopPhase → Option ErrorFrame
  | [], _ => none
  | _ :: rest, _ => iterNextFrom rest FrameLoopPhase.Context

/-- Collecting the full backend's iterator from a fresh `iter()` (index 0,
`LocationMismatchFrame` phase).  The first `next` call that returns `none`
ends the iteration; `iterNextFrom_eq_none` below proves the `some` branch is
never taken, so decoding always produces the empty list. -/
def decodeFrames (e : ErrorImpl) : List ErrorFrame :=
  match iterNextFrom e.steps FrameLoopPhase.LocationMismatchFrame with
  | none => []
  | some f => [f]

end Full

/-- A runtime value of a user error-code enum `T`, as seen through the
`ErrorCodePrivate` trait: a type identity (`TypeId::of::<T>()`) and the
variant's numeric value.  `is_value` is the trait's contract from
`error_code.rs`: the value matches exactly when the numeric values agree. -/
structure Candidate where
  tid : Nat
  value : Nat
deriving DecidableEq

/-- `ErrorCodePrivate::is_value` for a candidate enum value. -/
def Candidate.is_value (c : Candidate) (value : Nat) : Bool :=
  c.value == value

/-- `ErrorCodeInfo::is_value` from `error_code.rs` lines 24-26: the stored
type id must equal the candidate type's id, and the candidate must match the
stored numeric value. -/
def ErrorCodeInfo.is_value (ci : ErrorCodeInfo) (val : Candidate) : Bool :=
  ci.tid == val.tid && val.is_value ci.value

/-- The `Error` facade from `error.rs`, wrapping the default (compact)
backend instance. -/
structure Error where
  underlying : Unboxed.ErrorImpl
deriving DecidableEq

/-- `Error::is_code` from `error.rs` lines 12-18. -/
def Error.is_code (m : Mem) (e : Error) (value : Candidate) : Bool :=
  match e.underlying.code m with
  | some code => code.is_value value
  | none => false

/-- `error_code_for_error` from `error.rs` lines 33-36: always `None`. -/
def error_code_for_error : Option Nat :=
  none

/-- `impl From for Error` from `error.rs` lines 20-31: converting a foreign
error value constructs a `TypeOrigin` from the type's name with
`error_code_for_error` (always `None`) as the attached descriptor. -/
def Error.fromForeign (strPtr strLen : Nat) (location : Option DecodedLocation) :
    Option Error :=
  (Unboxed.ErrorImpl.new (ErrorOrigin.TypeOrigin strPtr strLen error_code_for_error)
    none location).map Error.mk

/-- The string `s` is stored in memory starting at address `a`. -/
def storedStr (m : Mem) (a : Nat) (s : List Char) : Prop :=
  ∀ i, (h : i < s.length) → m.byteAt (a + i) = s.get ⟨i, h⟩

namespace Unboxed

/-- Packed states reachable from a well-formed origin through well-formed
`push_context` calls. -/
inductive Reachable (m : Mem) : PackedOriginInfo → Prop where
  | origin (e : ErrorOrigin) (p : PackedOriginInfo) (he : originWF e)
      (h : PackedOriginInfo.for_origin e = some p) : Reachable m p
  | step (p q : PackedOriginInfo) (s : Nat) (hs : ptrWF s)
      (hp : Reachable m p) (h : p.with_context m s = some q) : Reachable m q

end Unboxed

/-!  Concrete static data used for counterexamples and witnesses: a `Kind`
error-code type (type identity 7) with variants `Timeout` (value 7) and
`NotFound` (value 3), several static descriptors laid out at 4-aligned
addresses, and the characters of the type name `io::Error` stored from
address 4 on. -/

def ciTimeout : ErrorCodeInfo := ⟨7, 7, "Kind", "Timeout", none⟩

def ciNotFound : ErrorCodeInfo := ⟨7, 3, "Kind", "NotFound", none⟩

/-- A codeless static origin descriptor (at address 4). -/
def essO : ErrorSourceStatic := ⟨none, some "origin failure", false, none⟩

/-- A codeless context descriptor (at address 8). -/
def essP1 : ErrorSourceStatic := ⟨none, some "while reading config", false, none⟩

/-- A context descriptor carrying `Kind::Timeout` (at address 12). -/
def essP2 : ErrorSourceStatic := ⟨some ciTimeout, some "request timed out", false, none⟩

/-- A codeless context descriptor (at address 16). -/
def essP3 : ErrorSourceStatic := ⟨none, some "while retrying", false, none⟩

/-- A static origin descriptor carrying `Kind::NotFound` and no message (at
address 20). -/
def essOC : ErrorSourceStatic := ⟨some ciNotFound, none, false, none⟩

/-- What the model reads at any other address (in particular at misaligned
addresses such as 13, which no descriptor occupies). -/
def essDefault : ErrorSourceStatic := ⟨none, none, false, none⟩

/-- The concrete memory for counterexamples and witnesses. -/
def cMem : Mem where
  srcAt := fun a =>
    if a = 4 then essO
    else if a = 8 then essP1
    else if a = 12 then essP2
    else if a = 16 then essP3
    else if a = 20 then essOC
    else essDefault
  byteAt := fun a =>
    if a = 4 then 'i'
    else if a = 5 then 'o'
    else if a = 6 then ':'
    else if a = 7 then ':'
    else if a = 8 then 'E'
    else if a = 9 then 'r'
    else if a = 10 then 'r'
    else if a = 11 then 'o'
    else if a = 12 then 'r'
    else ' '

/-- The characters of the foreign type name `io::Error`, stored in `cMem`
from address 4 on. -/
def ioErrorName : List Char := ['i', 'o', ':', ':', 'E', 'r', 'r', 'o', 'r']

/-- A sample call-site location. -/
def locMain : DecodedLocation := ⟨"main.rs", 10, 5⟩

/-- A second, different call-site location. -/
def locLib : DecodedLocation := ⟨"lib.rs", 20, 1⟩

/-- Classifier used to state spec properties: is the frame a type frame? -/
def ErrorFrameData.isTypeFrame : ErrorFrameData → Bool
  | ErrorFrameData.TypeFrame _ _ => true
  | _ => false

/-- Classifier used to state spec properties: does the frame expose a type
origin (either as a type frame or as the original-type-lost marker)? -/
def ErrorFrame.mentionsTypeOrigin (f : ErrorFrame) : Bool :=
  f.data.isTypeFrame
    || f.data == ErrorFrameData.InternalContext InternalContextType.OriginalTypeLost

/-!  ## Bit-level toolbox

Arithmetic facts about the tag/mask manipulation of the packed word.  All
proofs go through `Nat.testBit` extensionality. -/

theorem testBit_ge_64 {x : Nat} (h64 : x < 2 ^ 64) {i : Nat} (hi : 64 ≤ i) :
    Nat.testBit x i = false :=
  Nat.testBit_lt_two_pow (lt_of_lt_of_le h64 (Nat.pow_le_pow_right (by norm_num) hi))

theorem aligned_testBit_low {k o : Nat} (ho : o % 2 ^ k = 0) {i : Nat} (hi : i < k) :
    Nat.testBit o i = false := by
  have hdvd : 2 ^ k ∣ o := Nat.dvd_of_mod_eq_zero ho
  obtain ⟨q, rfl⟩ := hdvd
  have : 2 ^ k * q = q <<< k := by
    rw [Nat.shiftLeft_eq, Nat.mul_comm]
  rw [this, Nat.testBit_shiftLeft]
  simp [Nat.not_le_of_lt hi]

/-- Extracting the low `k` bits of `o ||| t` recovers `t` when `o` is
`2^k`-aligned and `t` fits in `k` bits. -/
theorem lor_land_mask {k o t : Nat} (ho : o % 2 ^ k = 0) (ht : t < 2 ^ k) :
    (o ||| t) &&& (2 ^ k - 1) = t := by
  apply Nat.eq_of_testBit_eq
  intro i
  rw [Nat.testBit_land, Nat.testBit_lor, Nat.testBit_two_pow_sub_one]
  by_cases hi : i < k
  · simp [aligned_testBit_low ho hi, hi]
  · have : Nat.testBit t i = false :=
      Nat.testBit_lt_two_pow (lt_of_lt_of_le ht (Nat.pow_le_pow_right (by norm_num)
        (Nat.le_of_not_lt hi)))
    simp [this, hi]

theorem compl_mask_eq_shift {k : Nat} (hk : k ≤ 64) :
    2 ^ 64 - 2 ^ k = (2 ^ (64 - k) - 1) <<< k := by
  rw [Nat.shiftLeft_eq, Nat.sub_mul, one_mul, ← Nat.pow_add]
  congr 2
  omega

theorem testBit_compl_mask {k : Nat} (hk : k ≤ 64) (i : Nat) :
    Nat.testBit (2 ^ 64 - 2 ^ k) i = (decide (k ≤ i) && decide (i < 64)) := by
  rw [compl_mask_eq_shift hk, Nat.testBit_shiftLeft, Nat.testBit_two_pow_sub_one]
  by_cases hki : k ≤ i
  · simp [hki]
    omega
  · simp [hki]

/-- Clearing the low `k` bits of `o ||| t` recovers `o` when `o` is
`2^k`-aligned, fits in the word, and `t` fits in `k` bits. -/
theorem lor_land_compl {k o t : Nat} (hk : k ≤ 64) (ho : o % 2 ^ k = 0)
    (h64 : o < 2 ^ 64) (ht : t < 2 ^ k) : (o ||| t) &&& (2 ^ 64 - 2 ^ k) = o := by
  apply Nat.eq_of_testBit_eq
  intro i
  rw [Nat.testBit_land, Nat.testBit_lor, testBit_compl_mask hk]
  by_cases hi : i < k
  · simp [aligned_testBit_low ho hi, Nat.not_le_of_lt hi]
  · by_cases hi64 : i < 64
    · have : Nat.testBit t i = false :=
        Nat.testBit_lt_two_pow (lt_of_lt_of_le ht (Nat.pow_le_pow_right (by norm_num)
          (Nat.le_of_not_lt hi)))
      simp [this, Nat.le_of_not_lt hi, hi64]
    · simp [testBit_ge_64 h64 (Nat.le_of_not_lt hi64), hi64]

/-- The length packed as `(len << 2) | 1` is recovered by `>> 2`. -/
theorem shl2_lor1_shr2 (len : Nat) : ((len <<< 2) ||| 1) >>> 2 = len := by
  apply Nat.eq_of_testBit_eq
  intro i
  rw [Nat.testBit_shiftRight, Nat.testBit_lor, Nat.testBit_shiftLeft]
  have h1 : Nat.testBit 1 (2 + i) = false :=
    Nat.testBit_lt_two_pow (by
      calc 1 < 2 ^ 2 := by norm_num
      _ ≤ 2 ^ (2 + i) := Nat.pow_le_pow_right (by norm_num) (by omega))
  simp [h1]

theorem land_three (x : Nat) : x &&& 3 = x % 4 := by
  have := Nat.and_pow_two_sub_one_eq_mod x 2
  norm_num at this
  exact this

namespace Unboxed

/-!  ## Structural lemmas about the packed engine -/

theorem tagBits_mk {o t : Nat} (a : Nat) (ho : o % 4 = 0) (ht : t < 4) :
    PackedOriginInfo.tagBits ⟨o ||| t, a⟩ = t := by
  have h := lor_land_mask (k := 2) (o := o) (t := t) (by simpa using ho) (by simpa using ht)
  norm_num at h
  simpa [PackedOriginInfo.tagBits, TAG_MASK] using h

theorem tagBits_aligned {o : Nat} (a : Nat) (ho : o % 4 = 0) :
    PackedOriginInfo.tagBits ⟨o, a⟩ = 0 := by
  simp [PackedOriginInfo.tagBits, TAG_MASK, land_three, ho]

theorem context_first_mk (m : Mem) {o t : Nat} (a : Nat) (ho : o % 4 = 0)
    (h64 : o < 2 ^ 64) (ht : t < 4) :
    PackedOriginInfo.context_first m ⟨o ||| t, a⟩ = m.srcAt o := by
  have h := lor_land_compl (k := 2) (o := o) (t := t) (by norm_num) (by simpa using ho)
    h64 (by simpa using ht)
  norm_num at h
  simp [PackedOriginInfo.context_first, NOT_TAG_MASK, h]

theorem context_first_aligned (m : Mem) {o : Nat} (a : Nat) (ho : o % 4 = 0)
    (h64 : o < 2 ^ 64) :
    PackedOriginInfo.context_first m ⟨o, a⟩ = m.srcAt o := by
  have h := context_first_mk m a ho h64 (t := 0) (by norm_num)
  simpa using h

theorem even_land_notOmit {a : Nat} (h2 : a % 2 = 0) (h64 : a < 2 ^ 64) :
    a &&& NOT_OMITTED_MASK = a := by
  have h := lor_land_compl (k := 1) (o := a) (t := 0) (by norm_num) (by simpa using h2)
    h64 (by norm_num)
  norm_num at h
  simpa [NOT_OMITTED_MASK] using h

theorem lor1_land_notOmit {a : Nat} (h2 : a % 2 = 0) (h64 : a < 2 ^ 64) :
    (a ||| 1) &&& NOT_OMITTED_MASK = a := by
  have h := lor_land_compl (k := 1) (o := a) (t := 1) (by norm_num) (by simpa using h2)
    h64 (by norm_num)
  norm_num at h
  simpa [NOT_OMITTED_MASK] using h

theorem lor1_land_one {a : Nat} (h2 : a % 2 = 0) : (a ||| 1) &&& 1 = 1 := by
  have h := lor_land_mask (k := 1) (o := a) (t := 1) (by simpa using h2) (by norm_num)
  have e : (2 : Nat) ^ 1 - 1 = 1 := by norm_num
  rw [e] at h
  exact h

theorem context_second_of_zero (m : Mem) (p : PackedOriginInfo) (h : p.additional = 0) :
    p.context_second m = none := by
  simp [PackedOriginInfo.context_second, h]

theorem context_second_of_even (m : Mem) (p : PackedOriginInfo) (h2 : p.additional % 2 = 0)
    (hne : p.additional ≠ 0) (h64 : p.additional < 2 ^ 64) :
    p.context_second m = some (m.srcAt p.additional) := by
  simp [PackedOriginInfo.context_second, even_land_notOmit h2 h64, hne]

theorem context_second_of_lor1 (m : Mem) (p : PackedOriginInfo) {a : Nat}
    (ha : p.additional = a ||| 1) (h2 : a % 2 = 0) (hne : a ≠ 0) (h64 : a < 2 ^ 64) :
    p.context_second m = some (m.srcAt a) := by
  simp [PackedOriginInfo.context_second, ha, lor1_land_notOmit h2 h64, hne]

/-- A push onto a state whose first context frame exists (`ORIGINAL` or
`CONTEXT_ONLY`) leaves the tag word untouched and merges into `additional`. -/
theorem with_context_ctx (m : Mem) (p : PackedOriginInfo) (s : Nat)
    (h : p.tagBits = TAG_STATIC_ORIGINAL ∨ p.tagBits = TAG_STATIC_CONTEXT_ONLY) :
    p.with_context m s = some ⟨p.tag,
      if p.additional = 0 then s
      else if (m.srcAt p.additional).error_code.isNone
          || (m.srcAt s).error_code.isSome then s ||| OMITTED_BIT_MASK
      else p.additional ||| OMITTED_BIT_MASK⟩ := by
  unfold PackedOriginInfo.with_context
  rw [if_pos h]
  by_cases h0 : p.additional = 0
  · simp [h0]
  · by_cases hc : ((m.srcAt p.additional).error_code.isNone
        || (m.srcAt s).error_code.isSome) = true
    · simp [h0, hc]
    · simp [h0, hc]

theorem with_context_type_only (m : Mem) (p : PackedOriginInfo) (s : Nat)
    (h : p.tagBits = TAG_STATIC_TYPE_ONLY) :
    p.with_context m s = some ⟨s ||| TAG_STATIC_CONTEXT_ONLY, 0⟩ := by
  unfold PackedOriginInfo.with_context
  rw [if_neg (by simp [h, TAG_STATIC_TYPE_ONLY, TAG_STATIC_ORIGINAL, TAG_STATIC_CONTEXT_ONLY]),
    if_pos h]

theorem foldl_bind_none (m : Mem) (l : List Nat) :
    List.foldl (fun acc s => Option.bind acc (fun q => q.with_context m s))
      (none : Option PackedOriginInfo) l = none := by
  induction l with
  | nil => rfl
  | cons s l ih => simpa using ih

theorem pushAll_nil (m : Mem) (p : PackedOriginInfo) : p.pushAll m [] = some p := rfl

theorem pushAll_cons (m : Mem) (p : PackedOriginInfo) (s : Nat) (l : List Nat) :
    p.pushAll m (s :: l) = (p.with_context m s).bind (fun q => q.pushAll m l) := by
  cases h : p.with_context m s with
  | none => simp [PackedOriginInfo.pushAll, h, foldl_bind_none]
  | some q => simp [PackedOriginInfo.pushAll, h]

/-- Any push sequence on a state with a first context frame succeeds and
never modifies the tag word. -/
theorem pushAll_ctx_tag (m : Mem) (l : List Nat) :
    ∀ p : PackedOriginInfo,
      p.tagBits = TAG_STATIC_ORIGINAL ∨ p.tagBits = TAG_STATIC_CONTEXT_ONLY →
      ∃ q, p.pushAll m l = some q ∧ q.tag = p.tag := by
  induction l with
  | nil => exact fun p _ => ⟨p, rfl, rfl⟩
  | cons s l ih =>
    intro p h
    rw [pushAll_cons, with_context_ctx m p s h]
    obtain ⟨q, hq, ht⟩ := ih ⟨p.tag, if p.additional = 0 then s
      else if (m.srcAt p.additional).error_code.isNone
          || (m.srcAt s).error_code.isSome then s ||| OMITTED_BIT_MASK
      else p.additional ||| OMITTED_BIT_MASK⟩ h
    exact ⟨q, by simpa using hq, ht⟩

/-!  ## Invariants of the compact frame decoder

For each phase block: a yielded frame never changes the stored packed state
or location, the phase rank strictly decreases, and every block after
`TypeContext` only emits substantive normal frames or the two non-type
diagnostics. -/

theorem phaseFramesOmitted_inv {it : ErrorImplIter} {fr : ErrorFrame} {it2 : ErrorImplIter}
    (h : phaseFramesOmitted it = some (fr, it2)) :
    it2.origin_info = it.origin_info ∧ it2.original_location = it.original_location ∧
      phaseRank it2.phase < 1 ∧ fr.mentionsTypeOrigin = false := by
  simp only [phaseFramesOmitted] at h
  split_ifs at h with h1 h2
  · cases h
    refine ⟨rfl, rfl, by simp [phaseRank], ?_⟩
    simp [ErrorFrame.mentionsTypeOrigin, ErrorFrameData.isTypeFrame]

theorem phaseLastContext_inv {m : Mem} {it : ErrorImplIter} {fr : ErrorFrame}
    {it2 : ErrorImplIter} (h : phaseLastContext m it = some (fr, it2)) :
    it2.origin_info = it.origin_info ∧ it2.original_location = it.original_location ∧
      phaseRank it2.phase < 2 ∧ fr.mentionsTypeOrigin = false := by
  simp only [phaseLastContext] at h
  by_cases h1 : it.origin_info.tagBits = TAG_STATIC_ORIGINAL
      ∨ it.origin_info.tagBits = TAG_STATIC_CONTEXT_ONLY
  · rw [if_pos h1] at h
    cases hcs : PackedOriginInfo.context_second m it.origin_info with
    | some cs =>
      rw [hcs] at h
      dsimp only at h
      cases h
      refine ⟨rfl, rfl, by simp [phaseRank], ?_⟩
      simp [ErrorFrame.mentionsTypeOrigin, ErrorFrameData.isTypeFrame,
        ErrorFrameData.decode_static]
    | none =>
      rw [hcs] at h
      dsimp only at h
      obtain ⟨ha, hb, h3, h4⟩ := phaseFramesOmitted_inv h
      exact ⟨ha, hb, by omega, h4⟩
  · rw [if_neg h1] at h
    obtain ⟨ha, hb, h3, h4⟩ := phaseFramesOmitted_inv h
    exact ⟨ha, hb, by omega, h4⟩

theorem phaseFirstContext_inv {m : Mem} {it : ErrorImplIter} {fr : ErrorFrame}
    {it2 : ErrorImplIter} (h : phaseFirstContext m it = some (fr, it2)) :
    it2.origin_info = it.origin_info ∧ it2.original_location = it.original_location ∧
      phaseRank it2.phase < 3 ∧ fr.mentionsTypeOrigin = false := by
  simp only [phaseFirstContext] at h
  by_cases h1 : it.origin_info.tagBits = TAG_STATIC_ORIGINAL
      ∨ it.origin_info.tagBits = TAG_STATIC_CONTEXT_ONLY
  · rw [if_pos h1] at h
    cases h
    refine ⟨rfl, rfl, by simp [phaseRank], ?_⟩
    simp [ErrorFrame.mentionsTypeOrigin, ErrorFrameData.isTypeFrame,
      ErrorFrameData.decode_static]
  · rw [if_neg h1] at h
    obtain ⟨ha, hb, h3, h4⟩ := phaseLastContext_inv h
    exact ⟨ha, hb, by omega, h4⟩

theorem phaseLocationMismatch_inv {m : Mem} {it : ErrorImplIter} {fr : ErrorFrame}
    {it2 : ErrorImplIter} (h : phaseLocationMismatch m it = some (fr, it2)) :
    it2.origin_info = it.origin_info ∧ it2.original_location = it.original_location ∧
      phaseRank it2.phase < 4 ∧ fr.mentionsTypeOrigin = false := by
  simp only [phaseLocationMismatch] at h
  by_cases h1 : it.origin_info.tagBits = TAG_STATIC_ORIGINAL
  · rw [if_pos h1] at h
    cases hla : (PackedOriginInfo.context_first m it.origin_info).location with
    | some la =>
      rw [hla] at h
      cases hlb : it.original_location with
      | some lb =>
        rw [hlb] at h
        dsimp only at h
        by_cases hsame : la.is_same lb = true
        · rw [if_neg (by simp [hsame])] at h
          obtain ⟨ha, hb, h3, h4⟩ := phaseFirstContext_inv h
          exact ⟨ha, hb, by omega, h4⟩
        · rw [if_pos (by simpa using hsame)] at h
          cases h
          refine ⟨rfl, rfl, by simp [phaseRank], ?_⟩
          simp [ErrorFrame.mentionsTypeOrigin, ErrorFrameData.isTypeFrame]
      | none =>
        rw [hlb] at h
        dsimp only at h
        obtain ⟨ha, hb, h3, h4⟩ := phaseFirstContext_inv h
        exact ⟨ha, hb, by omega, h4⟩
    | none =>
      rw [hla] at h
      dsimp only at h
      obtain ⟨ha, hb, h3, h4⟩ := phaseFirstContext_inv h
      exact ⟨ha, hb, by omega, h4⟩
  · rw [if_neg h1] at h
    obtain ⟨ha, hb, h3, h4⟩ := phaseFirstContext_inv h
    exact ⟨ha, hb, by omega, h4⟩

theorem phaseTypeContext_inv {m : Mem} {it : ErrorImplIter} {fr : ErrorFrame}
    {it2 : ErrorImplIter} (h : phaseTypeContext m it = some (fr, it2)) :
    it2.origin_info = it.origin_info ∧ it2.original_location = it.original_location ∧
      phaseRank it2.phase < 5 := by
  simp only [phaseTypeContext] at h
  by_cases h1 : it.origin_info.tagBits = TAG_STATIC_TYPE_ONLY
  · rw [if_pos h1] at h
    cases h
    exact ⟨rfl, rfl, by simp [phaseRank]⟩
  · rw [if_neg h1] at h
    by_cases h2 : it.origin_info.tagBits = TAG_STATIC_CONTEXT_ONLY
    · rw [if_pos h2] at h
      cases h
      exact ⟨rfl, rfl, by simp [phaseRank]⟩
    · rw [if_neg h2] at h
      obtain ⟨ha, hb, h3, _⟩ := phaseLocationMismatch_inv h
      exact ⟨ha, hb, by omega⟩

theorem iterNext_inv {m : Mem} {it : ErrorImplIter} {fr : ErrorFrame} {it2 : ErrorImplIter}
    (h : iterNext m it = some (fr, it2)) :
    it2.origin_info = it.origin_info ∧ it2.original_location = it.original_location ∧
      phaseRank it2.phase < phaseRank it.phase := by
  cases hp : it.phase
  case TypeContext =>
    rw [iterNext, hp] at h
    obtain ⟨h1, h2, h3⟩ := phaseTypeContext_inv h
    exact ⟨h1, h2, h3⟩
  case LocationMismatchFrame =>
    rw [iterNext, hp] at h
    obtain ⟨h1, h2, h3, _⟩ := phaseLocationMismatch_inv h
    exact ⟨h1, h2, h3⟩
  case FirstContext =>
    rw [iterNext, hp] at h
    obtain ⟨h1, h2, h3, _⟩ := phaseFirstContext_inv h
    exact ⟨h1, h2, h3⟩
  case LastContext =>
    rw [iterNext, hp] at h
    obtain ⟨h1, h2, h3, _⟩ := phaseLastContext_inv h
    exact ⟨h1, h2, h3⟩
  case FramesOmitted =>
    rw [iterNext, hp] at h
    obtain ⟨h1, h2, h3, _⟩ := phaseFramesOmitted_inv h
    exact ⟨h1, h2, h3⟩
  case Ended =>
    rw [iterNext, hp] at h
    exact absurd h (by simp)

/-- Any fuel above the phase rank decodes the same frame list; in
particular the fuel 6 used by `decodeFrames` is exact. -/
theorem iterFramesFuel_fuel_irrelevant (m : Mem) :
    ∀ n k (it : ErrorImplIter), phaseRank it.phase < n → phaseRank it.phase < k →
      iterFramesFuel m n it = iterFramesFuel m k it := by
  intro n
  induction n with
  | zero => intro k it hn _; omega
  | succ n ih =>
    intro k it hn hk
    cases k with
    | zero => omega
    | succ k =>
      simp only [iterFramesFuel]
      cases h : iterNext m it with
      | none => rfl
      | some p =>
        obtain ⟨f, it2⟩ := p
        obtain ⟨-, -, hr⟩ := iterNext_inv h
        dsimp only
        rw [ih k it2 (by omega) (by omega)]

/-- A state in the `ORIGINAL` packed mode never decodes to a type frame or
an original-type-lost marker, whatever the iterator phase. -/
theorem framesFuel_tag0 (m : Mem) :
    ∀ (n : Nat) (it : ErrorImplIter),
      it.origin_info.tagBits = TAG_STATIC_ORIGINAL →
      (iterFramesFuel m n it).any ErrorFrame.mentionsTypeOrigin = false := by
  intro n
  induction n with
  | zero => intro it _; rfl
  | succ n ih =>
    intro it htag
    simp only [iterFramesFuel]
    cases h : iterNext m it with
    | none => rfl
    | some p =>
      obtain ⟨f, it2⟩ := p
      obtain ⟨horig, -, -⟩ := iterNext_inv h
      have hf : f.mentionsTypeOrigin = false := by
        cases hp : it.phase <;> rw [iterNext, hp] at h
        case TypeContext =>
          simp only [phaseTypeContext] at h
          rw [if_neg (by simp [htag, TAG_STATIC_ORIGINAL, TAG_STATIC_TYPE_ONLY]),
            if_neg (by simp [htag, TAG_STATIC_ORIGINAL, TAG_STATIC_CONTEXT_ONLY])] at h
          exact (phaseLocationMismatch_inv h).2.2.2
        case LocationMismatchFrame => exact (phaseLocationMismatch_inv h).2.2.2
        case FirstContext => exact (phaseFirstContext_inv h).2.2.2
        case LastContext => exact (phaseLastContext_inv h).2.2.2
        case FramesOmitted => exact (phaseFramesOmitted_inv h).2.2.2
        case Ended => cases h
      simp [hf, ih it2 (by rw [horig]; exact htag)]

/-!  ## Fuel-level computation lemmas for specific decoder runs -/

theorem framesFuel_step_eq (m : Mem) (it it' : ErrorImplIter)
    (h : iterNext m it = iterNext m it') (n : Nat) :
    iterFramesFuel m (n + 1) it = iterFramesFuel m (n + 1) it' := by
  simp only [iterFramesFuel, h]

theorem framesFuel_ended (m : Mem) (st : PackedOriginInfo) (loc : Option DecodedLocation)
    (n : Nat) : iterFramesFuel m n ⟨ErrorIterPhase.Ended, st, loc⟩ = [] := by
  cases n <;> simp [iterFramesFuel, iterNext]

theorem iterNext_framesOmitted_none (m : Mem) (st : PackedOriginInfo)
    (loc : Option DecodedLocation) (hom : st.has_omitted_context = false) :
    iterNext m ⟨ErrorIterPhase.FramesOmitted, st, loc⟩ = none := by
  simp only [iterNext, phaseFramesOmitted]
  split_ifs with h1 <;> simp_all

theorem iterNext_lastContext_some (m : Mem) (st : PackedOriginInfo)
    (loc : Option DecodedLocation) (cs : ErrorSourceStatic)
    (htag : st.tagBits = TAG_STATIC_ORIGINAL ∨ st.tagBits = TAG_STATIC_CONTEXT_ONLY)
    (hcs : st.context_second m = some cs) :
    iterNext m ⟨ErrorIterPhase.LastContext, st, loc⟩
      = some (⟨ErrorFrameData.decode_static cs none, cs.location⟩,
          ⟨ErrorIterPhase.FramesOmitted, st, loc⟩) := by
  simp only [iterNext, phaseLastContext]
  rw [if_pos htag, hcs]

theorem iterNext_firstContext_original (m : Mem) (st : PackedOriginInfo)
    (loc : Option DecodedLocation) (htag0 : st.tagBits = TAG_STATIC_ORIGINAL) :
    iterNext m ⟨ErrorIterPhase.FirstContext, st, loc⟩
      = some (⟨ErrorFrameData.decode_static (st.context_first m) none, loc⟩,
          ⟨ErrorIterPhase.LastContext, st, loc⟩) := by
  simp only [iterNext, phaseFirstContext]
  rw [if_pos (Or.inl htag0), htag0]
  simp [TAG_STATIC_ORIGINAL]

theorem framesFuel_firstContext (m : Mem) (st : PackedOriginInfo)
    (loc : Option DecodedLocation) (cs : ErrorSourceStatic)
    (htag0 : st.tagBits = TAG_STATIC_ORIGINAL)
    (hcs : st.context_second m = some cs) (hom : st.has_omitted_context = false) (n : Nat) :
    iterFramesFuel m (n + 3) ⟨ErrorIterPhase.FirstContext, st, loc⟩
      = [⟨ErrorFrameData.decode_static (st.context_first m) none, loc⟩,
         ⟨ErrorFrameData.decode_static cs none, cs.location⟩] := by
  simp only [iterFramesFuel, iterNext_firstContext_original m st loc htag0,
    iterNext_lastContext_some m st loc cs (Or.inl htag0) hcs,
    iterNext_framesOmitted_none m st loc hom]

/-- Decoding from the `LocationMismatchFrame` phase, when the state is
`ORIGINAL` with a recorded last frame and a clear omitted flag, yields the
first and last frames as its exact substantive content, with no
omitted-frames marker — whether or not the construction-mismatch diagnostic
fires. -/
theorem framesFuel_locMismatch_two_frames (m : Mem) (st : PackedOriginInfo)
    (loc : Option DecodedLocation) (cs : ErrorSourceStatic)
    (htag0 : st.tagBits = TAG_STATIC_ORIGINAL)
    (hcs : st.context_second m = some cs) (hom : st.has_omitted_context = false) (n : Nat) :
    substantiveFrames (iterFramesFuel m (n + 4) ⟨ErrorIterPhase.LocationMismatchFrame, st, loc⟩)
      = [ErrorFrameData.decode_static (st.context_first m) none,
         ErrorFrameData.decode_static cs none]
    ∧ (iterFramesFuel m (n + 4)
        ⟨ErrorIterPhase.LocationMismatchFrame, st, loc⟩).any ErrorFrame.isOmittedMarker
      = false := by
  have hfall : ∀ loc' : Option DecodedLocation,
      iterNext m ⟨ErrorIterPhase.LocationMismatchFrame, st, loc'⟩
        = iterNext m ⟨ErrorIterPhase.FirstContext, st, loc'⟩ →
      substantiveFrames (iterFramesFuel m (n + 4)
          ⟨ErrorIterPhase.LocationMismatchFrame, st, loc'⟩)
        = [ErrorFrameData.decode_static (st.context_first m) none,
           ErrorFrameData.decode_static cs none]
      ∧ (iterFramesFuel m (n + 4)
          ⟨ErrorIterPhase.LocationMismatchFrame, st, loc'⟩).any ErrorFrame.isOmittedMarker
        = false := by
    intro loc' h
    rw [show n + 4 = (n + 3) + 1 from rfl, framesFuel_step_eq m _ _ h,
      show (n + 3) + 1 = (n + 1) + 3 from rfl,
      framesFuel_firstContext m st loc' cs htag0 hcs hom (n + 1)]
    constructor
    · simp [substantiveFrames, ErrorFrameData.isSubstantive, ErrorFrameData.decode_static]
    · simp [ErrorFrame.isOmittedMarker, ErrorFrameData.decode_static]
  cases hla : (st.context_first m).location with
  | none =>
    refine hfall loc ?_
    simp only [iterNext, phaseLocationMismatch, phaseFirstContext]
    rw [if_pos htag0, hla]
  | some la =>
    cases loc with
    | none =>
      refine hfall none ?_
      simp only [iterNext, phaseLocationMismatch, phaseFirstContext]
      rw [if_pos htag0, hla]
    | some lb =>
      by_cases hsame : la.is_same lb = true
      · refine hfall (some lb) ?_
        simp only [iterNext, phaseLocationMismatch, phaseFirstContext]
        rw [if_pos htag0, hla]
        dsimp only
        rw [if_neg (by simp [hsame])]
      · have step : iterNext m ⟨ErrorIterPhase.LocationMismatchFrame, st, some lb⟩
            = some (⟨ErrorFrameData.InternalContext InternalContextType.ErrorTypeConstructed,
                some la⟩, ⟨ErrorIterPhase.FirstContext, st, some lb⟩) := by
          simp only [iterNext, phaseLocationMismatch]
          rw [if_pos htag0, hla]
          dsimp only
          rw [if_pos (by simpa using hsame)]
        have hrest := framesFuel_firstContext m st (some lb) cs htag0 hcs hom n
        rw [show n + 4 = (n + 3) + 1 from rfl]
        simp only [iterFramesFuel, step, iterNext_firstContext_original m st (some lb) htag0,
          iterNext_lastContext_some m st (some lb) cs (Or.inl htag0) hcs,
          iterNext_framesOmitted_none m st (some lb) hom]
        constructor
        · simp [substantiveFrames, ErrorFrameData.isSubstantive, ErrorFrameData.decode_static]
        · simp [ErrorFrame.isOmittedMarker, ErrorFrameData.decode_static]

/-- Entering the decoder at `TypeContext` with a tag other than `TYPE_ONLY`
and `CONTEXT_ONLY` is the same as entering at `LocationMismatchFrame`. -/
theorem framesFuel_typeContext_skip (m : Mem) (st : PackedOriginInfo)
    (loc : Option DecodedLocation) (h1 : st.tagBits ≠ TAG_STATIC_TYPE_ONLY)
    (h2 : st.tagBits ≠ TAG_STATIC_CONTEXT_ONLY) (n : Nat) :
    iterFramesFuel m (n + 1) ⟨ErrorIterPhase.TypeContext, st, loc⟩
      = iterFramesFuel m (n + 1) ⟨ErrorIterPhase.LocationMismatchFrame, st, loc⟩ := by
  refine framesFuel_step_eq m _ _ ?_ n
  simp only [iterNext, phaseTypeContext]
  rw [if_neg h1, if_neg h2]

end Unboxed

/-!  ## The full backend's stubbed decoder -/

theorem Full.iterNextFrom_eq_none :
    ∀ (l : List Full.ErrorSourceStep) (ph : Full.FrameLoopPhase),
      Full.iterNextFrom l ph = none := by
  intro l
  induction l with
  | nil => intro ph; rfl
  | cons s rest ih => intro ph; exact ih Full.FrameLoopPhase.Context

theorem Full.decodeFrames_eq_nil (e : Full.ErrorImpl) : Full.decodeFrames e = [] := by
  rw [Full.decodeFrames, Full.iterNextFrom_eq_none]

/-!  ## Claim theorems -/

/-- C1: the compact backend does NOT always report the code of the most
recently pushed code-bearing frame.  Starting from the static origin at
address 4 (codeless) and pushing the descriptors at 8 (codeless), 12
(carrying `Kind::Timeout`) and 16 (codeless), `code()` returns `none`
although the most recently pushed code-bearing frame is the one at 12.
The third merge dereferences `additional` (which still carries the omitted
bit, i.e. address 13 instead of 12), reads an unrelated codeless value
there, and therefore replaces the code-bearing last frame with the codeless
frame at 16. -/
theorem c1_compact_code_loses_latest_code :
    Unboxed.PackedOriginInfo.for_origin (ErrorOrigin.StaticOrigin 4) = some ⟨4, 0⟩
    ∧ Unboxed.PackedOriginInfo.pushAll cMem ⟨4, 0⟩ [8, 12, 16] = some ⟨4, 17⟩
    ∧ (cMem.srcAt 12).error_code = some ciTimeout
    ∧ (cMem.srcAt 16).error_code = none
    ∧ (cMem.srcAt 4).error_code = none
    ∧ Unboxed.PackedOriginInfo.code cMem ⟨4, 17⟩ = none := by
  refine ⟨by decide, by decide, by decide, by decide, by decide, by decide⟩

/-- C2: the full backend's `push_context` overwrites `current_code` with the
new frame's (absent) code: constructing from the static origin at 20
(carrying `Kind::NotFound`) and pushing one codeless frame makes `code()`
return `none` instead of keeping `Kind::NotFound`. -/
theorem c2_full_code_overwritten_by_codeless_push :
    (Full.ErrorImpl.new cMem (ErrorOrigin.StaticOrigin 20) none locMain).code
      = some ciNotFound
    ∧ (cMem.srcAt 8).error_code = none
    ∧ ((Full.ErrorImpl.new cMem (ErrorOrigin.StaticOrigin 20) none locMain).push_context
        cMem 8 none locLib).code = none := by
  refine ⟨by decide, by decide, by decide⟩

/-- C4: the recorded last frame does NOT always follow the replacement rule.
After pushing 8 (codeless) then 12 (code-bearing) onto the origin at 4, the
recorded last frame is the descriptor at 12 and it carries a code; pushing
the codeless 16 should keep it, but the merge reads through the un-masked
`additional` word (address 13), finds no code there, and replaces the last
frame with the codeless descriptor at 16. -/
theorem c4_code_bearing_last_frame_replaced_by_codeless_push :
    Unboxed.PackedOriginInfo.pushAll cMem ⟨4, 0⟩ [8, 12] = some ⟨4, 13⟩
    ∧ Unboxed.PackedOriginInfo.context_second cMem ⟨4, 13⟩ = some essP2
    ∧ essP2.error_code = some ciTimeout
    ∧ (cMem.srcAt 16).error_code = none
    ∧ Unboxed.PackedOriginInfo.with_context cMem ⟨4, 13⟩ 16 = some ⟨4, 17⟩
    ∧ Unboxed.PackedOriginInfo.context_second cMem ⟨4, 17⟩ = some essP3
    ∧ ¬ essP3 = essP2 := by
  refine ⟨by decide, by decide, by decide, by decide, by decide, by decide, by decide⟩

/-- C5: the full backend's frame decoder is an unfinished stub: it yields no
frame at all for any instance, instead of one substantive frame per stored
step.  In particular a freshly constructed instance (one stored step, zero
pushes) decodes to 0 frames, not 1. -/
theorem c5_full_decoder_yields_no_frames :
    (∀ e : Full.ErrorImpl, Full.decodeFrames e = [])
    ∧ (Full.ErrorImpl.new cMem (ErrorOrigin.StaticOrigin 20) none locMain).steps.length = 1
    ∧ (Full.decodeFrames
        (Full.ErrorImpl.new cMem (ErrorOrigin.StaticOrigin 20) none locMain)).length = 0 := by
  refine ⟨Full.decodeFrames_eq_nil, by decide, ?_⟩
  rw [Full.decodeFrames_eq_nil]
  rfl

/-- C7: `is_code` returns `true` exactly when a current code exists and both
its type identity and its numeric value agree with the candidate's; hence it
is `false` whenever the code is absent or the type identities differ, even
if the numeric values coincide. -/
theorem c7_is_code_matches_identity (m : Mem) (e : Error) (v : Candidate) :
    e.is_code m v = true ↔
      ∃ ci, e.underlying.code m = some ci ∧ ci.tid = v.tid ∧ ci.value = v.value := by
  unfold Error.is_code
  cases h : e.underlying.code m with
  | none => simp
  | some ci =>
    simp only [ErrorCodeInfo.is_value, Candidate.is_value, Option.some.injEq,
      Bool.and_eq_true, beq_iff_eq]
    constructor
    · rintro ⟨h1, h2⟩
      exact ⟨ci, rfl, h1, h2.symm⟩
    · rintro ⟨ci', hci, h1, h2⟩
      cases hci
      exact ⟨h1, h2.symm⟩

/-- C6: the origin is immutable.  For the compact backend, any push sequence
onto a state in `ORIGINAL` or `CONTEXT_ONLY` succeeds, leaves the tag word
(discriminant and first-frame pointer) unchanged, and therefore leaves the
decoded first context frame unchanged; for the full backend, a push never
changes the first stored step. -/
theorem c6_origin_immutable (m : Mem) (p : Unboxed.PackedOriginInfo)
    (hp : p.tagBits = Unboxed.TAG_STATIC_ORIGINAL
      ∨ p.tagBits = Unboxed.TAG_STATIC_CONTEXT_ONLY)
    (srcs : List Nat) :
    ((p.pushAll m srcs).map Unboxed.PackedOriginInfo.tag = some p.tag
    ∧ (p.pushAll m srcs).map (fun q => q.context_first m) = some (p.context_first m))
    ∧ ∀ (e : Full.ErrorImpl) (s : Nat) (args : Option String) (loc : DecodedLocation),
        e.steps ≠ [] → (e.push_context m s args loc).steps.head? = e.steps.head? := by
  constructor
  · obtain ⟨q, hq, ht⟩ := Unboxed.pushAll_ctx_tag m srcs p hp
    rw [hq]
    simp [ht, Unboxed.PackedOriginInfo.context_first]
  · intro e s args loc he
    cases hs : e.steps with
    | nil => exact absurd hs he
    | cons a l => simp [Full.ErrorImpl.push_context, hs]

/-- Witness for C6 at a concrete input. -/
theorem c6_origin_immutable_witness :
    ((Unboxed.PackedOriginInfo.pushAll cMem ⟨4, 0⟩ [8, 12, 16]).map
        Unboxed.PackedOriginInfo.tag = some 4
    ∧ (Unboxed.PackedOriginInfo.pushAll cMem ⟨4, 0⟩ [8, 12, 16]).map
        (fun q => q.context_first cMem) = some essO)
    ∧ ((Full.ErrorImpl.new cMem (ErrorOrigin.StaticOrigin 20) none locMain).push_context
        cMem 8 none locLib).steps.head?
      = (Full.ErrorImpl.new cMem (ErrorOrigin.StaticOrigin 20) none locMain).steps.head? := by
  have h := c6_origin_immutable cMem ⟨4, 0⟩ (Or.inl (by decide)) [8, 12, 16]
  refine ⟨⟨h.1.1, ?_⟩, ?_⟩
  · rw [h.1.2]
    decide
  · exact h.2 (Full.ErrorImpl.new cMem (ErrorOrigin.StaticOrigin 20) none locMain)
      8 none locLib (by simp [Full.ErrorImpl.new])

/-- C8: every packed state reachable from a well-formed origin through
well-formed pushes has a discriminant among `ORIGINAL`, `TYPE_ONLY` and
`CONTEXT_ONLY` — the low two tag bits are never `0b11` — and `push_context`
is total on reachable states: the corrupted-tag (`unreachable_unchecked`)
arm is never taken. -/
theorem c8_reachable_tag_never_corrupted (m : Mem) (p : Unboxed.PackedOriginInfo)
    (h : Unboxed.Reachable m p) :
    (p.tagBits = Unboxed.TAG_STATIC_ORIGINAL ∨ p.tagBits = Unboxed.TAG_STATIC_TYPE_ONLY
      ∨ p.tagBits = Unboxed.TAG_STATIC_CONTEXT_ONLY)
    ∧ p.tagBits ≠ Unboxed.TAG_MASK
    ∧ ∀ s, (p.with_context m s).isSome = true := by
  have key : p.tagBits = Unboxed.TAG_STATIC_ORIGINAL
      ∨ p.tagBits = Unboxed.TAG_STATIC_TYPE_ONLY
      ∨ p.tagBits = Unboxed.TAG_STATIC_CONTEXT_ONLY := by
    induction h with
    | origin e p he hfo =>
      cases e with
      | StaticOrigin ptr =>
        simp only [Unboxed.PackedOriginInfo.for_origin, Option.some.injEq] at hfo
        subst hfo
        left
        simpa [Unboxed.TAG_STATIC_ORIGINAL] using Unboxed.tagBits_aligned 0 he.1
      | TypeOrigin strPtr strLen code =>
        cases code with
        | some cptr =>
          simp only [Unboxed.PackedOriginInfo.for_origin, Option.some.injEq] at hfo
          subst hfo
          left
          simpa [Unboxed.TAG_STATIC_ORIGINAL] using Unboxed.tagBits_aligned 0 he.1.1
        | none =>
          simp only [Unboxed.PackedOriginInfo.for_origin] at hfo
          split_ifs at hfo with hlen
          · simp only [Option.some.injEq] at hfo
            subst hfo
            right; left
            have halign : (strLen <<< 2) % 4 = 0 := by
              rw [Nat.shiftLeft_eq]
              omega
            simpa [Unboxed.TAG_STATIC_TYPE_ONLY] using
              Unboxed.tagBits_mk strPtr halign (t := 1) (by norm_num)
    | step p q s hs hp h ih =>
      rcases ih with h0 | h1 | h2
      · rw [Unboxed.with_context_ctx m p s (Or.inl h0)] at h
        cases h
        exact Or.inl h0
      · rw [Unboxed.with_context_type_only m p s h1] at h
        cases h
        right; right
        simpa [Unboxed.TAG_STATIC_CONTEXT_ONLY] using
          Unboxed.tagBits_mk 0 hs.1 (t := 2) (by norm_num)
      · rw [Unboxed.with_context_ctx m p s (Or.inr h2)] at h
        cases h
        exact Or.inr (Or.inr h2)
  refine ⟨key, ?_, ?_⟩
  · rcases key with h' | h' | h' <;> rw [h'] <;> decide
  · intro s
    rcases key with h' | h' | h'
    · rw [Unboxed.with_context_ctx m p s (Or.inl h')]
      rfl
    · rw [Unboxed.with_context_type_only m p s h']
      rfl
    · rw [Unboxed.with_context_ctx m p s (Or.inr h')]
      rfl

/-- Witness for C8 at a concrete reachable state. -/
theorem c8_reachable_tag_never_corrupted_witness :
    (Unboxed.PackedOriginInfo.tagBits ⟨4, 8⟩ ≠ Unboxed.TAG_MASK)
    ∧ (Unboxed.PackedOriginInfo.with_context cMem ⟨4, 8⟩ 12).isSome = true := by
  have hr : Unboxed.Reachable cMem ⟨4, 8⟩ :=
    Unboxed.Reachable.step ⟨4, 0⟩ ⟨4, 8⟩ 8 (by norm_num [ptrWF])
      (Unboxed.Reachable.origin (ErrorOrigin.StaticOrigin 4) ⟨4, 0⟩
        (by norm_num [originWF, ptrWF]) (by decide))
      (by decide)
  have h := c8_reachable_tag_never_corrupted cMem ⟨4, 8⟩ hr
  exact ⟨h.2.1, h.2.2 12⟩

/-- Reading back `s.length` characters from where `s` is stored recovers
`s`. -/
theorem storedStr_read (m : Mem) (a : Nat) (s : List Char) (h : storedStr m a s) :
    (List.range s.length).map (fun i => m.byteAt (a + i)) = s := by
  apply List.ext_getElem
  · simp
  · intro i h1 h2
    simp only [List.getElem_map, List.getElem_range]
    simpa using h i h2

/-- C9: converting a foreign error value with a packable type name and never
pushing context stores the name's data pointer and length in the `TYPE_ONLY`
encoding; the current code is `none`, and decoding yields exactly one frame,
a type frame carrying exactly that type name. -/
theorem c9_foreign_type_name_roundtrip (m : Mem) (a : Nat) (name : List Char)
    (loc : Option DecodedLocation) (hlen : name.length < Unboxed.MAX_TYPE_LEN)
    (hstored : storedStr m a name) (er : Error)
    (h : Error.fromForeign a name.length loc = some er) :
    er.underlying.origin_info
        = ⟨(name.length <<< 2) ||| Unboxed.TAG_STATIC_TYPE_ONLY, a⟩
    ∧ er.underlying.code m = none
    ∧ Unboxed.decodeFrames m er.underlying = [⟨ErrorFrameData.TypeFrame name none, loc⟩] := by
  simp only [Error.fromForeign, Unboxed.ErrorImpl.new, error_code_for_error,
    Unboxed.PackedOriginInfo.for_origin, hlen, if_pos, Option.map_some, Option.map,
    Option.some.injEq] at h
  subst h
  have halign : (name.length <<< 2) % 4 = 0 := by
    rw [Nat.shiftLeft_eq]
    omega
  have htag : Unboxed.PackedOriginInfo.tagBits
      ⟨(name.length <<< 2) ||| Unboxed.TAG_STATIC_TYPE_ONLY, a⟩ = 1 := by
    simpa [Unboxed.TAG_STATIC_TYPE_ONLY] using
      Unboxed.tagBits_mk a halign (t := 1) (by norm_num)
  have htag1 : Unboxed.PackedOriginInfo.tagBits ⟨(name.length <<< 2) ||| 1, a⟩ = 1 := by
    simpa [Unboxed.TAG_STATIC_TYPE_ONLY] using htag
  refine ⟨rfl, ?_, ?_⟩
  · simp [Unboxed.ErrorImpl.code, Unboxed.PackedOriginInfo.code,
      Unboxed.TAG_STATIC_TYPE_ONLY, htag, htag1]
  · have hname : Unboxed.PackedOriginInfo.ty_name m
        ⟨(name.length <<< 2) ||| Unboxed.TAG_STATIC_TYPE_ONLY, a⟩ = name := by
      simp only [Unboxed.PackedOriginInfo.ty_name]
      rw [show ((name.length <<< 2) ||| Unboxed.TAG_STATIC_TYPE_ONLY) >>> 2
          = name.length from shl2_lor1_shr2 name.length]
      exact storedStr_read m a name hstored
    have step : Unboxed.iterNext m ⟨Unboxed.ErrorIterPhase.TypeContext,
        ⟨(name.length <<< 2) ||| Unboxed.TAG_STATIC_TYPE_ONLY, a⟩, loc⟩
        = some (⟨ErrorFrameData.TypeFrame name none, loc⟩,
            ⟨Unboxed.ErrorIterPhase.Ended,
              ⟨(name.length <<< 2) ||| Unboxed.TAG_STATIC_TYPE_ONLY, a⟩, loc⟩) := by
      simp only [Unboxed.iterNext, Unboxed.phaseTypeContext]
      rw [if_pos (by simpa [Unboxed.TAG_STATIC_TYPE_ONLY] using htag), hname]
    have stepEnd : Unboxed.iterNext m ⟨Unboxed.ErrorIterPhase.Ended,
        ⟨(name.length <<< 2) ||| Unboxed.TAG_STATIC_TYPE_ONLY, a⟩, loc⟩ = none := rfl
    show Unboxed.iterFramesFuel m 6 _ = _
    rw [show (6 : Nat) = 5 + 1 from rfl]
    simp only [Unboxed.ErrorImpl.iter, Unboxed.iterFramesFuel, step, stepEnd]

/-- Witness for C9 at a concrete input: converting a foreign value of type
`io::Error` whose name is stored at address 4 of `cMem`. -/
theorem c9_foreign_type_name_roundtrip_witness :
    Unboxed.decodeFrames cMem ⟨⟨37, 4⟩, none⟩
      = [⟨ErrorFrameData.TypeFrame ioErrorName none, none⟩]
    ∧ Unboxed.PackedOriginInfo.code cMem ⟨37, 4⟩ = none := by
  have hstored : storedStr cMem 4 ioErrorName := by
    intro i h
    have h9 : i < 9 := by simpa [ioErrorName] using h
    interval_cases i <;> rfl
  have h := c9_foreign_type_name_roundtrip cMem 4 ioErrorName none (by decide) hstored
    ⟨⟨⟨37, 4⟩, none⟩⟩ (by decide)
  exact ⟨h.2.2, h.2.1⟩

/-- C10: a `TypeOrigin` carrying an attached code descriptor constructs the
very same packed state as a `StaticOrigin` of that descriptor — the foreign
type name is discarded at construction time.  Consequently `code()` comes
from the descriptor, and no decode of the state, after any push sequence,
ever emits a type frame or an original-type-lost marker. -/
theorem c10_type_origin_with_code_is_static_origin (m : Mem) (sp sl c : Nat)
    (hc : ptrWF c) :
    Unboxed.PackedOriginInfo.for_origin (ErrorOrigin.TypeOrigin sp sl (some c))
        = Unboxed.PackedOriginInfo.for_origin (ErrorOrigin.StaticOrigin c)
    ∧ ∀ p, Unboxed.PackedOriginInfo.for_origin (ErrorOrigin.TypeOrigin sp sl (some c))
          = some p →
        p.code m = (m.srcAt c).error_code
        ∧ ∀ srcs q loc, p.pushAll m srcs = some q →
            (Unboxed.decodeFrames m ⟨q, loc⟩).any ErrorFrame.mentionsTypeOrigin = false := by
  refine ⟨rfl, ?_⟩
  intro p hp
  simp only [Unboxed.PackedOriginInfo.for_origin, Option.some.injEq] at hp
  subst hp
  have htag : Unboxed.PackedOriginInfo.tagBits
      ⟨c ||| Unboxed.TAG_STATIC_ORIGINAL, 0⟩ = 0 := by
    simpa [Unboxed.TAG_STATIC_ORIGINAL] using
      Unboxed.tagBits_mk (o := c) 0 hc.1 (t := 0) (by norm_num)
  constructor
  · rw [Unboxed.PackedOriginInfo.code, if_neg (by simp [htag, Unboxed.TAG_STATIC_TYPE_ONLY]),
      Unboxed.context_second_of_zero m _ rfl]
    have := Unboxed.context_first_mk m (o := c) 0 hc.1 hc.2.2 (t := 0) (by norm_num)
    simp only [Unboxed.TAG_STATIC_ORIGINAL]
    rw [show ((⟨c ||| 0, 0⟩ : Unboxed.PackedOriginInfo).context_first m) = m.srcAt c
      from this]
  · intro srcs q loc hq
    obtain ⟨q', hq', ht⟩ := Unboxed.pushAll_ctx_tag m srcs _ (Or.inl htag)
    rw [hq] at hq'
    cases hq'
    have htagq : q.tagBits = Unboxed.TAG_STATIC_ORIGINAL := by
      simp only [Unboxed.PackedOriginInfo.tagBits, ht]
      exact htag
    exact Unboxed.framesFuel_tag0 m 6 ⟨Unboxed.ErrorIterPhase.TypeContext, q, loc⟩ htagq

/-- Witness for C10 at a concrete input. -/
theorem c10_type_origin_with_code_is_static_origin_witness :
    Unboxed.PackedOriginInfo.for_origin (ErrorOrigin.TypeOrigin 4 9 (some 20))
        = Unboxed.PackedOriginInfo.for_origin (ErrorOrigin.StaticOrigin 20)
    ∧ Unboxed.PackedOriginInfo.code cMem ⟨20, 0⟩ = some ciNotFound
    ∧ (Unboxed.decodeFrames cMem ⟨⟨20, 8⟩, none⟩).any ErrorFrame.mentionsTypeOrigin
      = false := by
  have h := c10_type_origin_with_code_is_static_origin cMem 4 9 20 (by norm_num [ptrWF])
  have h2 := h.2 ⟨20, 0⟩ (by decide)
  refine ⟨h.1, ?_, ?_⟩
  · rw [h2.1]
    decide
  · exact h2.2 [8] ⟨20, 8⟩ none (by decide)

/-- C3 counterexample: constructing from the static origin at 20 (which
carries `Kind::NotFound` and no message) and pushing exactly one codeless
context frame (the descriptor at 8) yields a decode with TWO substantive
frames, not one — the pushed frame is recorded as the last anchor and the
decoder emits it. -/
theorem c3_counterexample_two_substantive_frames :
    Unboxed.PackedOriginInfo.for_origin (ErrorOrigin.StaticOrigin 20) = some ⟨20, 0⟩
    ∧ (cMem.srcAt 20).error_code = some ciNotFound
    ∧ (cMem.srcAt 8).error_code = none
    ∧ Unboxed.PackedOriginInfo.with_context cMem ⟨20, 0⟩ 8 = some ⟨20, 8⟩
    ∧ (substantiveFrames (Unboxed.decodeFrames cMem ⟨⟨20, 8⟩, none⟩)).length = 2 := by
  refine ⟨by decide, by decide, by decide, by decide, by decide⟩

/-- C3 (amended): for a static origin carrying a code, pushing exactly one
codeless context frame preserves the origin's code as `code()` and sets no
omitted-frames marker, but decoding yields exactly TWO substantive frames:
the origin's frame first, then the pushed codeless frame as the recorded
last frame. -/
theorem c3_one_codeless_push_keeps_code_two_frames (m : Mem) (o p1 : Nat)
    (ho : ptrWF o) (hp1 : ptrWF p1) (c : ErrorCodeInfo)
    (hoc : (m.srcAt o).error_code = some c) (hp1c : (m.srcAt p1).error_code = none)
    (loc : Option DecodedLocation) (e1 : Unboxed.PackedOriginInfo)
    (h1 : Unboxed.PackedOriginInfo.with_context m ⟨o, 0⟩ p1 = some e1) :
    Unboxed.PackedOriginInfo.for_origin (ErrorOrigin.StaticOrigin o) = some ⟨o, 0⟩
    ∧ e1.code m = some c
    ∧ substantiveFrames (Unboxed.decodeFrames m ⟨e1, loc⟩)
        = [ErrorFrameData.decode_static (m.srcAt o) none,
           ErrorFrameData.decode_static (m.srcAt p1) none]
    ∧ (Unboxed.decodeFrames m ⟨e1, loc⟩).any ErrorFrame.isOmittedMarker = false := by
  obtain ⟨ho4, hone, ho64⟩ := ho
  obtain ⟨hp14, hp1ne, hp164⟩ := hp1
  have htag0 : Unboxed.PackedOriginInfo.tagBits ⟨o, 0⟩ = Unboxed.TAG_STATIC_ORIGINAL := by
    simpa [Unboxed.TAG_STATIC_ORIGINAL] using Unboxed.tagBits_aligned (o := o) 0 ho4
  have hwc : Unboxed.PackedOriginInfo.with_context m ⟨o, 0⟩ p1 = some ⟨o, p1⟩ := by
    unfold Unboxed.PackedOriginInfo.with_context
    rw [if_pos (Or.inl htag0), if_pos rfl]
  rw [hwc] at h1
  simp only [Option.some.injEq] at h1
  subst h1
  have htag0' : Unboxed.PackedOriginInfo.tagBits ⟨o, p1⟩ = Unboxed.TAG_STATIC_ORIGINAL := by
    simpa [Unboxed.TAG_STATIC_ORIGINAL] using Unboxed.tagBits_aligned (o := o) p1 ho4
  have hcf : Unboxed.PackedOriginInfo.context_first m ⟨o, p1⟩ = m.srcAt o :=
    Unboxed.context_first_aligned m p1 ho4 ho64
  have hcs : Unboxed.PackedOriginInfo.context_second m ⟨o, p1⟩ = some (m.srcAt p1) :=
    Unboxed.context_second_of_even m ⟨o, p1⟩ (by show p1 % 2 = 0; omega) hp1ne hp164
  have hom : Unboxed.PackedOriginInfo.has_omitted_context ⟨o, p1⟩ = false := by
    rw [Unboxed.PackedOriginInfo.has_omitted_context,
      if_pos (Or.inr htag0')]
    show (p1 &&& Unboxed.OMITTED_BIT_MASK == Unboxed.OMITTED_BIT_MASK) = false
    simp only [Unboxed.OMITTED_BIT_MASK, Nat.and_one_is_mod, beq_eq_false_iff_ne, ne_eq]
    omega
  have hfirst : Unboxed.PackedOriginInfo.for_origin (ErrorOrigin.StaticOrigin o)
      = some ⟨o, 0⟩ := by
    simp [Unboxed.PackedOriginInfo.for_origin, Unboxed.TAG_STATIC_ORIGINAL]
  have hcode : Unboxed.PackedOriginInfo.code m ⟨o, p1⟩ = some c := by
    rw [Unboxed.PackedOriginInfo.code,
      if_neg (by simp [htag0', Unboxed.TAG_STATIC_ORIGINAL, Unboxed.TAG_STATIC_TYPE_ONLY]),
      hcs]
    simp [hp1c, hcf, hoc]
  have hframes := Unboxed.framesFuel_locMismatch_two_frames m ⟨o, p1⟩ loc (m.srcAt p1)
    htag0' hcs hom 2
  have hskip : Unboxed.decodeFrames m ⟨⟨o, p1⟩, loc⟩
      = Unboxed.iterFramesFuel m (2 + 4)
          ⟨Unboxed.ErrorIterPhase.LocationMismatchFrame, ⟨o, p1⟩, loc⟩ := by
    show Unboxed.iterFramesFuel m 6 _ = _
    simp only [Unboxed.ErrorImpl.iter]
    rw [show (6 : Nat) = 5 + 1 from rfl]
    rw [Unboxed.framesFuel_typeContext_skip m ⟨o, p1⟩ loc
      (by simp [htag0', Unboxed.TAG_STATIC_ORIGINAL, Unboxed.TAG_STATIC_TYPE_ONLY])
      (by simp [htag0', Unboxed.TAG_STATIC_ORIGINAL, Unboxed.TAG_STATIC_CONTEXT_ONLY]) 5]
  refine ⟨hfirst, hcode, ?_, ?_⟩
  · rw [hskip, hframes.1, hcf]
  · rw [hskip, hframes.2]

/-- Witness for C3's amended statement at a concrete input. -/
theorem c3_one_codeless_push_keeps_code_two_frames_witness :
    Unboxed.PackedOriginInfo.code cMem ⟨20, 8⟩ = some ciNotFound
    ∧ substantiveFrames (Unboxed.decodeFrames cMem ⟨⟨20, 8⟩, none⟩)
        = [ErrorFrameData.decode_static essOC none, ErrorFrameData.decode_static essP1 none]
    ∧ (Unboxed.decodeFrames cMem ⟨⟨20, 8⟩, none⟩).any ErrorFrame.isOmittedMarker = false := by
  have h := c3_one_codeless_push_keeps_code_two_frames cMem 20 8
    (by norm_num [ptrWF]) (by norm_num [ptrWF]) ciNotFound (by decide) (by decide)
    none ⟨20, 8⟩ (by decide)
  refine ⟨h.2.1, ?_, h.2.2.2⟩
  rw [h.2.2.1]
  decide

end Errcode
